import Mathlib

/-!
Verification of the COVID-19 CSV pipeline (`world_usage/src/main.py`).

The program is a linear ETL pipeline over one tabular dataset:
load a CSV, clean it (drop incomplete rows, parse the `Last_Update`
column, keep only `Country_Region == "US"` rows, drop the `Long_` and
`Lat` columns), save the result, and analyze it (derived
case-fatality-ratio column plus plots).

The embedding below mirrors the source:
* a dataframe is a column-name list plus rows of optional values
  (`none` models a missing value / NaN);
* in-place mutation of the caller's dataframe inside `clean_data`
  is modelled by returning, next to the function result, the final
  state of the argument object (`CleanOutcome.caller`);
* the external CSV reader, CSV writer and `pd.to_datetime` are
  collaborators: reading and writing outcomes are parameters
  (`ReadResult`, `WriteResult`) and parsing is a parameter function
  `parse : Val → Option Val` (with a concrete model `toDatetime` used
  for concrete runs);
* unhandled Python exceptions inside cleaning are the `Except` error
  channel (`CleanError.keyError` for a missing-column access,
  `CleanError.parseError` for an unparseable timestamp);
* logging is modelled by returning the list of emitted log messages.
-/

namespace Covid

/-- A scalar value held in a dataframe cell: a string, a (rational)
number, or an already-parsed datetime. -/
inductive Val where
  | str : String → Val
  | num : ℚ → Val
  | date : Int → Val
deriving DecidableEq

/-- A cell is a value or a missing entry (NaN). -/
abbrev Cell := Option Val

/-- A dataframe: named columns and rows of cells, in column order. -/
structure DataFrame where
  cols : List String
  rows : List (List Cell)
deriving DecidableEq

/-- Well-formedness: every row has one cell per column, and column
names are not duplicated (the pandas operations used by the program
are only faithfully modelled for distinct column labels). -/
def DataFrame.WF (df : DataFrame) : Prop :=
  (∀ r ∈ df.rows, r.length = df.cols.length) ∧ df.cols.Nodup

instance (df : DataFrame) : Decidable df.WF := by
  unfold DataFrame.WF
  infer_instance

/-- `pd.DataFrame()`: the empty dataframe (no columns, no rows). -/
def emptyDF : DataFrame := ⟨[], []⟩

/-- `df.empty`: true when either axis has length zero. -/
def DataFrame.isEmpty (df : DataFrame) : Bool :=
  df.rows.isEmpty || df.cols.isEmpty

/-- A row is complete when no cell is missing. -/
def rowComplete (r : List Cell) : Bool :=
  r.all (fun x => x.isSome)

/-- `df.dropna(inplace=True)`: keep only rows with no missing cell. -/
def dropna (df : DataFrame) : DataFrame :=
  ⟨df.cols, df.rows.filter rowComplete⟩

/-- Row lookup of the (first) column named `tgt`, walking columns and
cells in parallel; `none` when the column is absent (or the row is too
short). -/
def lookupCell : List String → List Cell → String → Option Cell
  | [], _, _ => none
  | _ :: _, [], _ => none
  | c :: cs, x :: r, tgt => if c = tgt then some x else lookupCell cs r tgt

/-- Errors that escape `clean_data` as unhandled Python exceptions. -/
inductive CleanError where
  | keyError
  | parseError
deriving DecidableEq

/-- One row of the assignment
`df[LU] = pd.to_datetime(df[LU])`: replace the cell of the
(first) `Last_Update` column by its parsed value; a missing cell stays
missing (NaT); an unparseable value is a `parseError`; running past the
columns without finding `Last_Update` is a `keyError`. -/
def setCol (parse : Val → Option Val) : List String → List Cell → Except CleanError (List Cell)
  | [], _ => .error .keyError
  | _ :: _, [] => .error .keyError
  | c :: cs, x :: r =>
    if c = "Last_Update" then
      match x with
      | none => .ok (none :: r)
      | some v =>
        match parse v with
        | none => .error .parseError
        | some v2 => .ok (some v2 :: r)
    else (setCol parse cs r).map (fun r2 => x :: r2)

/-- Error-propagating map over a list (first error wins), used for the
whole-column datetime conversion. -/
def mapE (f : α → Except ε β) : List α → Except ε (List β)
  | [] => .ok []
  | a :: as =>
    match f a with
    | .error e => .error e
    | .ok b => (mapE f as).map (fun bs => b :: bs)

/-- `df['Last_Update'] = pd.to_datetime(df['Last_Update'])`: a
`keyError` when the column is absent, a `parseError` when any value of
the column fails to parse, otherwise the converted dataframe. -/
def convertCol (parse : Val → Option Val) (df : DataFrame) : Except CleanError DataFrame :=
  if "Last_Update" ∈ df.cols then
    (mapE (setCol parse df.cols) df.rows).map (fun rs => ⟨df.cols, rs⟩)
  else .error .keyError

/-- `df[df['Country_Region'] == 'US']`: keep rows whose
`Country_Region` cell holds exactly the string `"US"` (a missing cell
compares unequal, as NaN does). -/
def filterUS (df : DataFrame) : DataFrame :=
  ⟨df.cols, df.rows.filter
    (fun r => decide (lookupCell df.cols r "Country_Region" = some (some (Val.str "US"))))⟩

/-- The columns removed by cleaning. -/
def droppedCols : List String := ["Long_", "Lat"]

/-- Remove from one row the cells of the columns named in `cs`. -/
def dropRowCells (cs : List String) : List String → List Cell → List Cell
  | [], _ => []
  | _ :: _, [] => []
  | c :: cols2, x :: r =>
    if cs.contains c then dropRowCells cs cols2 r
    else x :: dropRowCells cs cols2 r

/-- `df.drop(columns=cs, errors='ignore', inplace=True)`: drop the
named columns when present; absence is tolerated. -/
def dropCols (df : DataFrame) (cs : List String) : DataFrame :=
  ⟨df.cols.filter (fun c => !cs.contains c),
   df.rows.map (dropRowCells cs df.cols)⟩

/-- Severity levels of the logger collaborator. -/
inductive LogLevel where
  | debug
  | info
  | warning
  | error
deriving DecidableEq

/-- One emitted log entry. -/
structure LogMsg where
  level : LogLevel
  msg : String
deriving DecidableEq

/-- Number of error-level entries in a log. -/
def countErrors (logs : List LogMsg) : Nat :=
  (logs.filter (fun m => decide (m.level = LogLevel.error))).length

/-- The `logger.info` message listing the dataset columns. -/
def colsMsg (cols : List String) : String :=
  "Columns in the dataset: " ++ toString cols

/-- The `logger.error` message for a missing `Country_Region` column. -/
def countryMissingMsg : String := "\x27Country_Region\x27 column not found."

deriving instance DecidableEq for Except

/-- Everything observable about one call of `clean_data`: the returned
value (or the unhandled exception), the final state of the caller's
dataframe object (the function mutates its argument in place), and the
log entries emitted. -/
structure CleanOutcome where
  result : Except CleanError DataFrame
  caller : DataFrame
  logs : List LogMsg
deriving DecidableEq

/-- `clean_data(df)`, statement by statement:
1. `df.dropna(inplace=True)` mutates the caller's object;
2. `df['Last_Update'] = pd.to_datetime(df['Last_Update'])` also mutates
   it, and may raise (leaving the object merely dropna-ed);
3. `logger.info` lists the columns;
4. if `Country_Region` is absent, log an error and return
   `pd.DataFrame()`;
5. keep the `US` rows (a fresh frame — the caller's object is no longer
   touched from here on);
6. drop `Long_` and `Lat` tolerantly and return. -/
def clean_data (parse : Val → Option Val) (df : DataFrame) : CleanOutcome :=
  let df1 := dropna df
  match convertCol parse df1 with
  | .error e => ⟨.error e, df1, []⟩
  | .ok df2 =>
    if "Country_Region" ∈ df2.cols then
      ⟨.ok (dropCols (filterUS df2) droppedCols), df2,
       [⟨.info, colsMsg df2.cols⟩]⟩
    else
      ⟨.ok emptyDF, df2,
       [⟨.info, colsMsg df2.cols⟩, ⟨.error, countryMissingMsg⟩]⟩

/-- Outcome of the external CSV read attempted by `load_data`: a parsed
dataframe, or one of the three caught exception kinds. -/
inductive ReadResult where
  | ok : DataFrame → ReadResult
  | fileNotFound : ReadResult
  | parserError : ReadResult
  | otherError : String → ReadResult
deriving DecidableEq

def loadSuccessMsg : String := "Data successfully loaded"

def fileNotFoundMsg (p : String) : String :=
  "File not found at path: " ++ p ++ ". Please check the file path."

def parserErrorMsg : String := "Error reading the CSV file. It may be malformed."

def unexpectedErrorMsg (e : String) : String :=
  "An unexpected error occurred: " ++ e

/-- `load_data(file_path)`: returns the parsed dataframe and an info
log entry on success; on each caught exception kind, logs one distinct
error message and returns `None`. Totality of this function is the
no-exception-propagates guarantee. -/
def load_data (p : String) (r : ReadResult) : Option DataFrame × List LogMsg :=
  match r with
  | .ok d => (some d, [⟨.info, loadSuccessMsg⟩])
  | .fileNotFound => (none, [⟨.error, fileNotFoundMsg p⟩])
  | .parserError => (none, [⟨.error, parserErrorMsg⟩])
  | .otherError e => (none, [⟨.error, unexpectedErrorMsg e⟩])

/-- Outcome of the external CSV write attempted by `save_cleaned_data`. -/
inductive WriteResult where
  | ok : WriteResult
  | failure : String → WriteResult
deriving DecidableEq

def savedMsg (p : String) : String := "Cleaned data saved to " ++ p

def saveFailedMsg (e : String) : String :=
  "Failed to save cleaned data: " ++ e

/-- `save_cleaned_data(df, file_path)`: logs success or the caught
write failure; it always returns normally (the function is total), so
the caller can only tell success from failure through the logs. -/
def save_cleaned_data (_df : DataFrame) (p : String) (w : WriteResult) : List LogMsg :=
  match w with
  | .ok => [⟨.info, savedMsg p⟩]
  | .failure e => [⟨.error, saveFailedMsg e⟩]

def noDataMsg : String := "No data available for analysis."

/-- The log entries emitted by `analyze_data(cleaned_data)`: a warning
when the table is empty, otherwise none (printing and plotting are
display-only side effects). -/
def analyze_data (df : DataFrame) : List LogMsg :=
  if df.isEmpty then [⟨.warning, noDataMsg⟩] else []

/-- The per-row case-fatality-ratio lambda of `analyze_data`, over
exact rationals:
`(row['Deaths'] / row['Confirmed'] * 100) if row['Confirmed'] > 0 else 0`. -/
def caseFatalityRatioQ (confirmed deaths : ℚ) : ℚ :=
  if confirmed > 0 then deaths / confirmed * 100 else 0

/-- Decimal reading of a character list (`none` unless the list is a
nonempty run of digits). -/
def digitsToNat (cs : List Char) : Option Nat :=
  if cs.isEmpty || !cs.all Char.isDigit then none
  else some (cs.foldl (fun n c => n * 10 + (c.toNat - 48)) 0)

/-- Model of the external collaborator `pd.to_datetime` on one value:
an already-parsed datetime is returned unchanged, a digit string parses
to a datetime, anything else fails to parse. -/
def toDatetime : Val → Option Val
  | .date n => some (.date n)
  | .str s => (digitsToNat s.data).map (fun n => .date (Int.ofNat n))
  | .num _ => none

/-- The four pipeline stages of the `__main__` block. -/
inductive Stage where
  | load
  | clean
  | persist
  | analyze
deriving DecidableEq

/-- Everything observable about one run of the `__main__` block. -/
structure RunResult where
  stages : List Stage
  logs : List LogMsg
  crashed : Option CleanError
  wrote : Bool
deriving DecidableEq

def csvFilePath : String := "../01-01-2021 (1).csv"

def processedFilePath : String := "../processed_data.csv"

/-- The two log entries the `__main__` block emits before loading. -/
def startLogs : List LogMsg :=
  [⟨.warning, "Running analysis on single file only"⟩,
   ⟨.info, "Attempting to load data from: " ++ csvFilePath⟩]

def loadFailedMsg : String := "Data loading failed. Exiting the script."

def emptyCleanedMsg : String := "Cleaned data is empty. Exiting the script."

/-- The `__main__` block: load, then — gated on success — clean, then —
gated on a non-empty result — persist and analyze. An unhandled
exception from cleaning aborts the run (`crashed`); `wrote` records
whether the output file was actually written. -/
def runMain (read : ReadResult) (parse : Val → Option Val) (write : WriteResult) : RunResult :=
  match load_data csvFilePath read with
  | (none, llogs) =>
    ⟨[.load], startLogs ++ llogs ++ [⟨.error, loadFailedMsg⟩], none, false⟩
  | (some df, llogs) =>
    let c := clean_data parse df
    match c.result with
    | .error e => ⟨[.load, .clean], startLogs ++ llogs ++ c.logs, some e, false⟩
    | .ok cleaned =>
      if cleaned.isEmpty then
        ⟨[.load, .clean],
         startLogs ++ llogs ++ c.logs ++ [⟨.error, emptyCleanedMsg⟩], none, false⟩
      else
        ⟨[.load, .clean, .persist, .analyze],
         startLogs ++ llogs ++ c.logs
           ++ save_cleaned_data cleaned processedFilePath write
           ++ analyze_data cleaned,
         none,
         match write with
         | .ok => true
         | .failure _ => false⟩

/-- A sample raw table: one complete US row, one incomplete row, one
Canadian row, with a coordinate column. -/
def sampleRaw : DataFrame :=
  ⟨["Last_Update", "Country_Region", "Lat"],
   [[some (Val.date 1), some (Val.str "US"), some (Val.num 5)],
    [none, some (Val.str "US"), some (Val.num 6)],
    [some (Val.date 2), some (Val.str "Canada"), some (Val.num 7)]]⟩

/-- The table `clean_data` produces from `sampleRaw`. -/
def sampleCleaned : DataFrame :=
  ⟨["Last_Update", "Country_Region"], [[some (Val.date 1), some (Val.str "US")]]⟩

/-- A table fixed by cleaning: complete, US-only, coordinate-free, with
a parsed timestamp column. -/
def fixedTable : DataFrame :=
  ⟨["Last_Update", "Country_Region"], [[some (Val.date 3), some (Val.str "US")]]⟩

/-! ### Helper lemmas -/

theorem string_data_append (s t : String) : (s ++ t).data = s.data ++ t.data := by
  cases s; cases t; rfl

theorem ne_of_firstChar {s t : String} (h : s.data.head? ≠ t.data.head?) : s ≠ t :=
  fun he => h (by rw [he])

theorem fileNotFoundMsg_firstChar (p : String) :
    (fileNotFoundMsg p).data.head? = some (Char.ofNat 70) := by
  show ((("File not found at path: " : String) ++ p)
      ++ (". Please check the file path." : String)).data.head? = _
  rw [string_data_append, string_data_append]
  rfl

theorem unexpectedErrorMsg_firstChar (e : String) :
    (unexpectedErrorMsg e).data.head? = some (Char.ofNat 65) := by
  show (("An unexpected error occurred: " : String) ++ e).data.head? = _
  rw [string_data_append]
  rfl

theorem parserErrorMsg_firstChar :
    parserErrorMsg.data.head? = some (Char.ofNat 69) := by
  rfl

theorem convertCol_cols (parse : Val → Option Val) (df df2 : DataFrame)
    (h : convertCol parse df = .ok df2) : df2.cols = df.cols := by
  unfold convertCol at h
  split at h
  · cases hm : mapE (setCol parse df.cols) df.rows with
    | error e => rw [hm] at h; simp [Except.map] at h
    | ok rs =>
      rw [hm] at h
      simp only [Except.map] at h
      cases h
      rfl
  · simp at h

/-- On input missing `Country_Region` (with a convertible timestamp
column), `clean_data` returns the empty dataframe, leaves the caller's
object dropna-ed and datetime-converted, and logs the column list plus
one error. -/
theorem clean_data_missing_country (parse : Val → Option Val) (df df2 : DataFrame)
    (hconv : convertCol parse (dropna df) = .ok df2)
    (hcr : "Country_Region" ∉ df.cols) :
    clean_data parse df =
      ⟨.ok emptyDF, df2, [⟨.info, colsMsg df2.cols⟩, ⟨.error, countryMissingMsg⟩]⟩ := by
  have hcols : df2.cols = df.cols := convertCol_cols parse (dropna df) df2 hconv
  have hcr2 : "Country_Region" ∉ df2.cols := by rw [hcols]; exact hcr
  simp [clean_data, hconv, hcr2]

/-- On input missing `Last_Update`, `clean_data` raises a `keyError`
before logging anything, with the caller's object already dropna-ed. -/
theorem clean_data_missing_last_update (parse : Val → Option Val) (df : DataFrame)
    (hlu : "Last_Update" ∉ df.cols) :
    clean_data parse df = ⟨.error .keyError, dropna df, []⟩ := by
  have hc : convertCol parse (dropna df) = .error .keyError := by
    have h2 : "Last_Update" ∉ (dropna df).cols := hlu
    simp [convertCol, h2]
  simp [clean_data, hc]

/-- The `__main__` block only ever runs one of three stage sequences. -/
theorem runMain_stages (read : ReadResult) (parse : Val → Option Val) (w : WriteResult) :
    (runMain read parse w).stages = [Stage.load] ∨
    (runMain read parse w).stages = [Stage.load, Stage.clean] ∨
    (runMain read parse w).stages =
      [Stage.load, Stage.clean, Stage.persist, Stage.analyze] := by
  cases read with
  | ok d =>
    simp only [runMain, load_data]
    cases hc : (clean_data parse d).result with
    | error e => simp
    | ok cleaned =>
      by_cases he : cleaned.isEmpty <;> simp [he]
  | fileNotFound => simp [runMain, load_data]
  | parserError => simp [runMain, load_data]
  | otherError e => simp [runMain, load_data]

theorem mapE_ok_mem {α β ε : Type} {f : α → Except ε β} :
    ∀ {l : List α} {bs : List β}, mapE f l = .ok bs → ∀ b ∈ bs, ∃ a ∈ l, f a = .ok b := by
  intro l
  induction l with
  | nil =>
    intro bs h b hb
    simp [mapE] at h
    subst h
    simp at hb
  | cons a as ih =>
    intro bs h b hb
    simp only [mapE] at h
    cases hf : f a with
    | error e => rw [hf] at h; simp at h
    | ok b0 =>
      rw [hf] at h
      cases hm : mapE f as with
      | error e => rw [hm] at h; simp [Except.map] at h
      | ok bs0 =>
        rw [hm] at h
        simp [Except.map] at h
        subst h
        cases hb with
        | head => exact ⟨a, List.mem_cons_self a as, hf⟩
        | tail _ hb2 =>
          obtain ⟨a2, ha2, hfa2⟩ := ih hm b hb2
          exact ⟨a2, List.mem_cons_of_mem a ha2, hfa2⟩

theorem mapE_ok_of_fix {α ε : Type} {f : α → Except ε α} :
    ∀ {l : List α}, (∀ a ∈ l, f a = .ok a) → mapE f l = .ok l := by
  intro l
  induction l with
  | nil => intro _; rfl
  | cons a as ih =>
    intro h
    have ha := h a (List.mem_cons_self a as)
    have has := ih (fun x hx => h x (List.mem_cons_of_mem a hx))
    simp [mapE, ha, has, Except.map]

theorem mapE_error_of_mem {α β ε : Type} {f : α → Except ε β} {e : ε} :
    ∀ {l : List α}, (∀ a ∈ l, f a = .error e ∨ ∃ b, f a = .ok b) →
      (∃ a ∈ l, f a = .error e) → mapE f l = .error e := by
  intro l
  induction l with
  | nil => intro _ hex; simp at hex
  | cons a as ih =>
    intro hall hex
    rcases hall a (List.mem_cons_self a as) with ha | ⟨b, hb⟩
    · simp [mapE, ha]
    · have hex2 : ∃ x ∈ as, f x = .error e := by
        rcases hex with ⟨x, hx, hfx⟩
        cases hx with
        | head => rw [hb] at hfx; simp at hfx
        | tail _ hx2 => exact ⟨x, hx2, hfx⟩
      have htail := ih (fun x hx => hall x (List.mem_cons_of_mem a hx)) hex2
      simp [mapE, hb, htail, Except.map]

theorem setCol_ok_length {parse : Val → Option Val} :
    ∀ (cols : List String) (r r2 : List Cell),
      setCol parse cols r = .ok r2 → r2.length = r.length := by
  intro cols
  induction cols with
  | nil => intro r r2 h; simp [setCol] at h
  | cons c cs ih =>
    intro r r2 h
    cases r with
    | nil => simp [setCol] at h
    | cons x xs =>
      by_cases hc : c = "Last_Update"
      · cases x with
        | none =>
          simp [setCol, hc] at h
          subst h
          rfl
        | some v =>
          cases hp : parse v with
          | none => simp [setCol, hc, hp] at h
          | some v2 =>
            simp [setCol, hc, hp] at h
            subst h
            rfl
      · cases hs : setCol parse cs xs with
        | error e2 => simp [setCol, hc, hs, Except.map] at h
        | ok r3 =>
          simp [setCol, hc, hs, Except.map] at h
          subst h
          simp [ih xs r3 hs]

theorem setCol_ok_complete {parse : Val → Option Val} :
    ∀ (cols : List String) (r r2 : List Cell),
      (∀ x ∈ r, x.isSome) → setCol parse cols r = .ok r2 → ∀ x ∈ r2, x.isSome := by
  intro cols
  induction cols with
  | nil => intro r r2 _ h; simp [setCol] at h
  | cons c cs ih =>
    intro r r2 hcomp h
    cases r with
    | nil => simp [setCol] at h
    | cons x xs =>
      by_cases hc : c = "Last_Update"
      · cases x with
        | none =>
          have h2 := hcomp none (List.mem_cons_self none xs)
          simp at h2
        | some v =>
          cases hp : parse v with
          | none => simp [setCol, hc, hp] at h
          | some v2 =>
            simp [setCol, hc, hp] at h
            subst h
            intro y hy
            cases hy with
            | head => rfl
            | tail _ hy2 => exact hcomp y (List.mem_cons_of_mem _ hy2)
      · cases hs : setCol parse cs xs with
        | error e2 => simp [setCol, hc, hs, Except.map] at h
        | ok r3 =>
          simp [setCol, hc, hs, Except.map] at h
          subst h
          intro y hy
          cases hy with
          | head => exact hcomp x (List.mem_cons_self x xs)
          | tail _ hy2 =>
            exact ih xs r3 (fun z hz => hcomp z (List.mem_cons_of_mem _ hz)) hs y hy2

theorem setCol_ok_of_fix {parse : Val → Option Val} :
    ∀ (cols : List String) (r : List Cell), "Last_Update" ∈ cols →
      r.length = cols.length → (∀ x ∈ r, x.isSome) →
      (∀ v : Val, lookupCell cols r "Last_Update" = some (some v) → parse v = some v) →
      setCol parse cols r = .ok r := by
  intro cols
  induction cols with
  | nil => intro r hm; simp at hm
  | cons c cs ih =>
    intro r hm hlen hcomp hfix
    cases r with
    | nil => simp at hlen
    | cons x xs =>
      by_cases hc : c = "Last_Update"
      · rcases Option.isSome_iff_exists.mp (hcomp x (List.mem_cons_self x xs)) with ⟨v, hv⟩
        subst hv
        have hl : lookupCell (c :: cs) (some v :: xs) "Last_Update" = some (some v) := by
          simp [lookupCell, hc]
        have := hfix v hl
        simp [setCol, hc, this]
      · have hm2 : "Last_Update" ∈ cs := by
          cases hm with
          | head => exact absurd rfl hc
          | tail _ h2 => exact h2
        have hfix2 : ∀ v : Val, lookupCell cs xs "Last_Update" = some (some v) → parse v = some v := by
          intro v hl
          apply hfix
          simp [lookupCell, hc, hl]
        have hrec := ih xs hm2 (by simpa using hlen)
          (fun z hz => hcomp z (List.mem_cons_of_mem _ hz)) hfix2
        simp [setCol, hc, hrec, Except.map]

theorem setCol_parse_error {parse : Val → Option Val} :
    ∀ (cols : List String) (r : List Cell) (v : Val),
      r.length = cols.length →
      lookupCell cols r "Last_Update" = some (some v) → parse v = none →
      setCol parse cols r = .error .parseError := by
  intro cols
  induction cols with
  | nil =>
    intro r v _ hl
    cases r <;> simp [lookupCell] at hl
  | cons c cs ih =>
    intro r v hlen hl hp
    cases r with
    | nil => simp at hlen
    | cons x xs =>
      by_cases hc : c = "Last_Update"
      · simp [lookupCell, hc] at hl
        subst hl
        simp [setCol, hc, hp]
      · simp [lookupCell, hc] at hl
        have hrec := ih xs v (by simpa using hlen) hl hp
        simp [setCol, hc, hrec, Except.map]

theorem setCol_ok_or_parse_error {parse : Val → Option Val} :
    ∀ (cols : List String) (r : List Cell), "Last_Update" ∈ cols →
      r.length = cols.length →
      setCol parse cols r = .error .parseError ∨ ∃ r2, setCol parse cols r = .ok r2 := by
  intro cols
  induction cols with
  | nil => intro r hm; simp at hm
  | cons c cs ih =>
    intro r hm hlen
    cases r with
    | nil => simp at hlen
    | cons x xs =>
      by_cases hc : c = "Last_Update"
      · cases x with
        | none => exact Or.inr ⟨none :: xs, by simp [setCol, hc]⟩
        | some v =>
          cases hp : parse v with
          | none => exact Or.inl (by simp [setCol, hc, hp])
          | some v2 => exact Or.inr ⟨some v2 :: xs, by simp [setCol, hc, hp]⟩
      · have hm2 : "Last_Update" ∈ cs := by
          cases hm with
          | head => exact absurd rfl hc
          | tail _ h2 => exact h2
        rcases ih xs hm2 (by simpa using hlen) with h | ⟨r3, h⟩
        · exact Or.inl (by simp [setCol, hc, h, Except.map])
        · exact Or.inr ⟨x :: r3, by simp [setCol, hc, h, Except.map]⟩

theorem convertCol_ok_rows {parse : Val → Option Val} {df df2 : DataFrame}
    (h : convertCol parse df = .ok df2) :
    df2.cols = df.cols ∧ "Last_Update" ∈ df.cols ∧
      ∀ r2 ∈ df2.rows, ∃ r ∈ df.rows, setCol parse df.cols r = .ok r2 := by
  unfold convertCol at h
  split at h
  case isTrue hin =>
    cases hm : mapE (setCol parse df.cols) df.rows with
    | error e => rw [hm] at h; simp [Except.map] at h
    | ok rs =>
      rw [hm] at h
      simp [Except.map] at h
      refine ⟨by rw [← h], hin, ?_⟩
      intro r2 hr2
      rw [← h] at hr2
      exact mapE_ok_mem hm r2 hr2
  case isFalse => simp at h

theorem dropna_sub (df : DataFrame) : ∀ r ∈ (dropna df).rows, r ∈ df.rows := by
  intro r hr
  exact List.mem_of_mem_filter hr

theorem dropna_complete (df : DataFrame) :
    ∀ r ∈ (dropna df).rows, ∀ x ∈ r, x.isSome := by
  intro r hr x hx
  have h2 : rowComplete r = true := List.of_mem_filter hr
  unfold rowComplete at h2
  rw [List.all_eq_true] at h2
  exact h2 x hx

theorem lookupCell_dropRowCells (cs : List String) (tgt : String)
    (hc : cs.contains tgt = false) :
    ∀ (cols : List String) (r : List Cell), r.length = cols.length →
      lookupCell (cols.filter (fun c2 => !cs.contains c2)) (dropRowCells cs cols r) tgt
        = lookupCell cols r tgt := by
  intro cols
  induction cols with
  | nil =>
    intro r hlen
    rw [List.length_nil] at hlen
    rw [List.length_eq_zero] at hlen
    subst hlen
    rfl
  | cons c cols2 ih =>
    intro r hlen
    cases r with
    | nil => simp at hlen
    | cons x xs =>
      by_cases h2 : cs.contains c = true
      · have hne : ¬ c = tgt := by
          intro he
          subst he
          rw [hc] at h2
          exact Bool.false_ne_true h2
        have hm : c ∈ cs := by simpa using h2
        have hf : (c :: cols2).filter (fun c2 => !cs.contains c2)
            = cols2.filter (fun c2 => !cs.contains c2) := by
          simp [List.filter_cons, h2, hm]
        have hd : dropRowCells cs (c :: cols2) (x :: xs) = dropRowCells cs cols2 xs := by
          simp [dropRowCells, h2, hm]
        rw [hf, hd, ih xs (by simpa using hlen)]
        simp [lookupCell, hne]
      · have h2f : cs.contains c = false := by simpa using h2
        have hnm : c ∉ cs := by simpa using h2f
        have hf : (c :: cols2).filter (fun c2 => !cs.contains c2)
            = c :: cols2.filter (fun c2 => !cs.contains c2) := by
          simp [List.filter_cons, h2f, hnm]
        have hd : dropRowCells cs (c :: cols2) (x :: xs)
            = x :: dropRowCells cs cols2 xs := by
          simp [dropRowCells, h2f, hnm]
        rw [hf, hd]
        by_cases he : c = tgt
        · simp [lookupCell, he]
        · simp only [lookupCell, he, if_false]
          exact ih xs (by simpa using hlen)

theorem mem_dropRowCells (cs : List String) :
    ∀ (cols : List String) (r : List Cell) (x : Cell),
      x ∈ dropRowCells cs cols r → x ∈ r := by
  intro cols
  induction cols with
  | nil => intro r x hx; simp [dropRowCells] at hx
  | cons c cols2 ih =>
    intro r x hx
    cases r with
    | nil => simp [dropRowCells] at hx
    | cons y ys =>
      by_cases h2 : cs.contains c = true
      · have hm : c ∈ cs := by simpa using h2
        have hd : dropRowCells cs (c :: cols2) (y :: ys) = dropRowCells cs cols2 ys := by
          simp [dropRowCells, h2, hm]
        rw [hd] at hx
        exact List.mem_cons_of_mem y (ih ys x hx)
      · have h2f : cs.contains c = false := by simpa using h2
        have hnm : c ∉ cs := by simpa using h2f
        have hd : dropRowCells cs (c :: cols2) (y :: ys)
            = y :: dropRowCells cs cols2 ys := by
          simp [dropRowCells, h2f, hnm]
        rw [hd] at hx
        cases hx with
        | head => exact List.mem_cons_self _ _
        | tail _ hx2 => exact List.mem_cons_of_mem y (ih ys x hx2)

theorem dropRowCells_eq_self (cs : List String) :
    ∀ (cols : List String) (r : List Cell),
      (∀ c ∈ cols, cs.contains c = false) → r.length = cols.length →
      dropRowCells cs cols r = r := by
  intro cols
  induction cols with
  | nil =>
    intro r _ hlen
    rw [List.length_nil, List.length_eq_zero] at hlen
    subst hlen
    rfl
  | cons c cols2 ih =>
    intro r hall hlen
    cases r with
    | nil => simp at hlen
    | cons y ys =>
      have hcf : cs.contains c = false := hall c (List.mem_cons_self c cols2)
      have hnm : c ∉ cs := by simpa using hcf
      have hd : dropRowCells cs (c :: cols2) (y :: ys)
          = y :: dropRowCells cs cols2 ys := by
        simp [dropRowCells, hcf, hnm]
      rw [hd, ih ys (fun z hz => hall z (List.mem_cons_of_mem c hz)) (by simpa using hlen)]

theorem map_eq_self_of_fix {α : Type} (f : α → α) :
    ∀ (l : List α), (∀ a ∈ l, f a = a) → l.map f = l := by
  intro l
  induction l with
  | nil => intro _; rfl
  | cons a as ih =>
    intro h
    rw [List.map_cons, h a (List.mem_cons_self a as),
        ih (fun x hx => h x (List.mem_cons_of_mem a hx))]

/-! ### Claim theorems -/

/-- C2: for every row with confirmed ≥ deaths ≥ 0 the computed
case-fatality-ratio lies in [0, 100], and whenever confirmed is 0 the
ratio is exactly 0 regardless of deaths (the guard avoids the division
entirely; the function is total, so no exception and no NaN). -/
theorem caseFatalityRatioQ_bounds (c d : ℚ) :
    (0 ≤ d → d ≤ c →
      0 ≤ caseFatalityRatioQ c d ∧ caseFatalityRatioQ c d ≤ 100) ∧
    (c = 0 → caseFatalityRatioQ c d = 0) := by
  constructor
  · intro hd hdc
    unfold caseFatalityRatioQ
    by_cases hc : c > 0
    · rw [if_pos hc]
      constructor
      · have h1 : 0 ≤ d / c := div_nonneg hd hc.le
        positivity
      · have h1 : d / c ≤ 1 := (div_le_one hc).mpr hdc
        calc d / c * 100 ≤ 1 * 100 := by
              exact mul_le_mul_of_nonneg_right h1 (by norm_num)
          _ = 100 := by norm_num
    · rw [if_neg hc]
      norm_num
  · intro hc
    unfold caseFatalityRatioQ
    rw [if_neg]
    rw [hc]
    norm_num

/-- Witness for C2 at confirmed = 4, deaths = 1 and at confirmed = 0,
deaths = 7. -/
theorem caseFatalityRatioQ_bounds_witness :
    (0 : ℚ) ≤ 1 ∧ (1 : ℚ) ≤ 4 ∧
    (0 ≤ caseFatalityRatioQ 4 1 ∧ caseFatalityRatioQ 4 1 ≤ 100) ∧
    caseFatalityRatioQ 0 7 = 0 :=
  ⟨by norm_num, by norm_num,
   (caseFatalityRatioQ_bounds 4 1).1 (by norm_num) (by norm_num),
   (caseFatalityRatioQ_bounds 0 7).2 rfl⟩

/-- C5: for every file path, the loader either returns the parsed table
(with one informational log entry) or a no-data result with exactly one
error log entry; it is a total function (no exception propagates), and
the three failure kinds produce pairwise distinct error messages. -/
theorem load_data_total (p e : String) (d : DataFrame) :
    load_data p (.ok d) = (some d, [⟨LogLevel.info, loadSuccessMsg⟩]) ∧
    load_data p .fileNotFound = (none, [⟨LogLevel.error, fileNotFoundMsg p⟩]) ∧
    load_data p .parserError = (none, [⟨LogLevel.error, parserErrorMsg⟩]) ∧
    load_data p (.otherError e) = (none, [⟨LogLevel.error, unexpectedErrorMsg e⟩]) ∧
    fileNotFoundMsg p ≠ parserErrorMsg ∧
    fileNotFoundMsg p ≠ unexpectedErrorMsg e ∧
    parserErrorMsg ≠ unexpectedErrorMsg e := by
  refine ⟨rfl, rfl, rfl, rfl, ?_, ?_, ?_⟩
  · exact ne_of_firstChar (by
      rw [fileNotFoundMsg_firstChar, parserErrorMsg_firstChar]
      decide)
  · exact ne_of_firstChar (by
      rw [fileNotFoundMsg_firstChar, unexpectedErrorMsg_firstChar]
      decide)
  · exact ne_of_firstChar (by
      rw [parserErrorMsg_firstChar, unexpectedErrorMsg_firstChar]
      decide)

/-- C10: on every input table lacking the `Last_Update` column the
cleaning operation raises an unhandled `KeyError` (the timestamp access
precedes the `Country_Region` existence check), so the run crashes
instead of reaching the empty-table result — regardless of whether
`Country_Region` is present. -/
theorem clean_data_key_error (parse : Val → Option Val) (w : WriteResult) (df : DataFrame)
    (hlu : "Last_Update" ∉ df.cols) :
    (clean_data parse df).result = .error .keyError ∧
    (runMain (.ok df) parse w).crashed = some .keyError ∧
    Stage.persist ∉ (runMain (.ok df) parse w).stages ∧
    Stage.analyze ∉ (runMain (.ok df) parse w).stages := by
  have h := clean_data_missing_last_update parse df hlu
  have hrun : runMain (.ok df) parse w =
      ⟨[Stage.load, Stage.clean],
       startLogs ++ [⟨.info, loadSuccessMsg⟩] ++ (clean_data parse df).logs,
       some .keyError, false⟩ := by
    simp [runMain, load_data, h]
  have hs : (runMain (.ok df) parse w).stages = [Stage.load, Stage.clean] := by
    rw [hrun]
  refine ⟨by rw [h], by rw [hrun], by rw [hs]; decide, by rw [hs]; decide⟩

/-- Witness for C10: a table with a `Country_Region` column but no
`Last_Update` column crashes cleaning with a `KeyError`. -/
theorem clean_data_key_error_witness :
    ("Last_Update" ∉ (⟨["Country_Region"], [[some (Val.str "US")]]⟩ : DataFrame).cols) ∧
    (clean_data toDatetime ⟨["Country_Region"], [[some (Val.str "US")]]⟩).result
      = .error .keyError ∧
    (runMain (.ok ⟨["Country_Region"], [[some (Val.str "US")]]⟩) toDatetime .ok).crashed
      = some .keyError :=
  ⟨by decide,
   (clean_data_key_error toDatetime .ok _ (by decide)).1,
   (clean_data_key_error toDatetime .ok _ (by decide)).2.1⟩

/-- C9: `clean_data` mutates its argument in place — the missing-value
rows are dropped from, and the timestamp column converted on, the
caller's original object before the `Country_Region` check, so on the
structural-failure path that returns an empty table the caller's raw
table has already been modified (cleaning is not atomic in its input). -/
theorem clean_data_mutates_input (parse : Val → Option Val) (df df2 : DataFrame)
    (hconv : convertCol parse (dropna df) = .ok df2)
    (hcr : "Country_Region" ∉ df.cols) :
    (clean_data parse df).result = .ok emptyDF ∧
    (clean_data parse df).caller = df2 := by
  rw [clean_data_missing_country parse df df2 hconv hcr]
  exact ⟨rfl, rfl⟩

/-- Witness for C9: a raw table with one incomplete row and a string
timestamp; after the failing clean the caller's object has lost the
row and holds a parsed datetime, while the result is the empty table. -/
theorem clean_data_mutates_input_witness :
    convertCol toDatetime (dropna ⟨["Last_Update"], [[some (Val.str "7")], [none]]⟩)
      = .ok ⟨["Last_Update"], [[some (Val.date 7)]]⟩ ∧
    ("Country_Region" ∉ (⟨["Last_Update"], [[some (Val.str "7")], [none]]⟩ : DataFrame).cols) ∧
    (clean_data toDatetime ⟨["Last_Update"], [[some (Val.str "7")], [none]]⟩).result
      = .ok emptyDF ∧
    (clean_data toDatetime ⟨["Last_Update"], [[some (Val.str "7")], [none]]⟩).caller
      = ⟨["Last_Update"], [[some (Val.date 7)]]⟩ ∧
    (⟨["Last_Update"], [[some (Val.date 7)]]⟩ : DataFrame)
      ≠ ⟨["Last_Update"], [[some (Val.str "7")], [none]]⟩ :=
  ⟨by decide, by decide,
   (clean_data_mutates_input toDatetime
      ⟨["Last_Update"], [[some (Val.str "7")], [none]]⟩
      ⟨["Last_Update"], [[some (Val.date 7)]]⟩ (by decide) (by decide)).1,
   (clean_data_mutates_input toDatetime
      ⟨["Last_Update"], [[some (Val.str "7")], [none]]⟩
      ⟨["Last_Update"], [[some (Val.date 7)]]⟩ (by decide) (by decide)).2,
   by decide⟩

/-- C3 counterexample: on a concrete table lacking `Country_Region`,
cleaning does return the empty table and persist/analyze are skipped,
but two errors (not one) are logged during the run: the cleaner's
missing-column error and the entry script's empty-result error. -/
theorem run_missing_country_counterexample :
    (clean_data toDatetime ⟨["Last_Update"], [[some (Val.date 0)]]⟩).result = .ok emptyDF ∧
    Stage.persist ∉ (runMain (.ok ⟨["Last_Update"], [[some (Val.date 0)]]⟩) toDatetime .ok).stages ∧
    Stage.analyze ∉ (runMain (.ok ⟨["Last_Update"], [[some (Val.date 0)]]⟩) toDatetime .ok).stages ∧
    countErrors (runMain (.ok ⟨["Last_Update"], [[some (Val.date 0)]]⟩) toDatetime .ok).logs = 2 ∧
    countErrors (runMain (.ok ⟨["Last_Update"], [[some (Val.date 0)]]⟩) toDatetime .ok).logs ≠ 1 := by
  refine ⟨by decide, by decide, by decide, by decide, by decide⟩

/-- C3 (amended): for every input table lacking `Country_Region` whose
timestamp column converts, cleaning returns an empty table, the persist
and analyze stages are both skipped, and exactly two errors are logged
during the run. -/
theorem run_missing_country (parse : Val → Option Val) (w : WriteResult) (df df2 : DataFrame)
    (hconv : convertCol parse (dropna df) = .ok df2)
    (hcr : "Country_Region" ∉ df.cols) :
    (clean_data parse df).result = .ok emptyDF ∧
    Stage.persist ∉ (runMain (.ok df) parse w).stages ∧
    Stage.analyze ∉ (runMain (.ok df) parse w).stages ∧
    countErrors (runMain (.ok df) parse w).logs = 2 := by
  have h := clean_data_missing_country parse df df2 hconv hcr
  have hrun : runMain (.ok df) parse w =
      ⟨[Stage.load, Stage.clean],
       startLogs ++ [⟨.info, loadSuccessMsg⟩]
         ++ [⟨.info, colsMsg df2.cols⟩, ⟨.error, countryMissingMsg⟩]
         ++ [⟨.error, emptyCleanedMsg⟩], none, false⟩ := by
    simp [runMain, load_data, h, DataFrame.isEmpty, emptyDF]
  have hs : (runMain (.ok df) parse w).stages = [Stage.load, Stage.clean] := by
    rw [hrun]
  refine ⟨by rw [h], by rw [hs]; decide, by rw [hs]; decide, by rw [hrun]; rfl⟩

/-- Witness for C3 (amended): the concrete one-row table without
`Country_Region` from the counterexample run. -/
theorem run_missing_country_witness :
    convertCol toDatetime (dropna ⟨["Last_Update"], [[some (Val.date 3)]]⟩)
      = .ok ⟨["Last_Update"], [[some (Val.date 3)]]⟩ ∧
    ("Country_Region" ∉ (⟨["Last_Update"], [[some (Val.date 3)]]⟩ : DataFrame).cols) ∧
    countErrors (runMain (.ok ⟨["Last_Update"], [[some (Val.date 3)]]⟩) toDatetime .ok).logs = 2 :=
  ⟨by decide, by decide,
   (run_missing_country toDatetime .ok
      ⟨["Last_Update"], [[some (Val.date 3)]]⟩
      ⟨["Last_Update"], [[some (Val.date 3)]]⟩ (by decide) (by decide)).2.2.2⟩

/-- C8: whenever the loader returns a no-data result, the run never
invokes clean, persist or analyze, logs the load-failure error, and
exits with no output file written. -/
theorem run_load_failure (read : ReadResult) (parse : Val → Option Val) (w : WriteResult)
    (h : (load_data csvFilePath read).1 = none) :
    (runMain read parse w).stages = [Stage.load] ∧
    Stage.clean ∉ (runMain read parse w).stages ∧
    Stage.persist ∉ (runMain read parse w).stages ∧
    Stage.analyze ∉ (runMain read parse w).stages ∧
    (runMain read parse w).wrote = false ∧
    (⟨LogLevel.error, loadFailedMsg⟩ : LogMsg) ∈ (runMain read parse w).logs := by
  cases read with
  | ok d => simp [load_data] at h
  | fileNotFound =>
    have hr : runMain .fileNotFound parse w =
        ⟨[Stage.load],
         startLogs ++ [⟨.error, fileNotFoundMsg csvFilePath⟩] ++ [⟨.error, loadFailedMsg⟩],
         none, false⟩ := rfl
    rw [hr]
    exact ⟨rfl, by simp, by simp, by simp, rfl, by simp⟩
  | parserError =>
    have hr : runMain .parserError parse w =
        ⟨[Stage.load],
         startLogs ++ [⟨.error, parserErrorMsg⟩] ++ [⟨.error, loadFailedMsg⟩],
         none, false⟩ := rfl
    rw [hr]
    exact ⟨rfl, by simp, by simp, by simp, rfl, by simp⟩
  | otherError e =>
    have hr : runMain (.otherError e) parse w =
        ⟨[Stage.load],
         startLogs ++ [⟨.error, unexpectedErrorMsg e⟩] ++ [⟨.error, loadFailedMsg⟩],
         none, false⟩ := rfl
    rw [hr]
    exact ⟨rfl, by simp, by simp, by simp, rfl, by simp⟩

/-- Witness for C8: a file-not-found read outcome. -/
theorem run_load_failure_witness :
    (load_data csvFilePath ReadResult.fileNotFound).1 = none ∧
    (runMain ReadResult.fileNotFound toDatetime WriteResult.ok).stages = [Stage.load] ∧
    (runMain ReadResult.fileNotFound toDatetime WriteResult.ok).wrote = false :=
  ⟨rfl,
   (run_load_failure ReadResult.fileNotFound toDatetime WriteResult.ok rfl).1,
   (run_load_failure ReadResult.fileNotFound toDatetime WriteResult.ok rfl).2.2.2.2.1⟩

/-- C6: the persister never raises — it is a total function that logs
either success or the caught write failure and returns normally — and
whenever the run reaches the persist stage it goes on to the analyze
stage regardless of the write outcome. -/
theorem save_never_raises (df : DataFrame) (p e : String) (read : ReadResult)
    (parse : Val → Option Val) (w : WriteResult) :
    save_cleaned_data df p .ok = [⟨LogLevel.info, savedMsg p⟩] ∧
    save_cleaned_data df p (.failure e) = [⟨LogLevel.error, saveFailedMsg e⟩] ∧
    (Stage.persist ∈ (runMain read parse w).stages →
      Stage.analyze ∈ (runMain read parse w).stages) := by
  refine ⟨rfl, rfl, ?_⟩
  rcases runMain_stages read parse w with h | h | h <;> rw [h] <;> intro hm
  · exact absurd hm (by decide)
  · exact absurd hm (by decide)
  · decide

/-- Witness for C6: a run over a one-row US table whose write fails;
the persist stage is reached and the analyze stage still runs. -/
theorem save_never_raises_witness :
    Stage.persist ∈ (runMain
      (.ok ⟨["Last_Update", "Country_Region"], [[some (Val.date 1), some (Val.str "US")]]⟩)
      toDatetime (.failure "disk full")).stages ∧
    Stage.analyze ∈ (runMain
      (.ok ⟨["Last_Update", "Country_Region"], [[some (Val.date 1), some (Val.str "US")]]⟩)
      toDatetime (.failure "disk full")).stages :=
  ⟨by decide,
   (save_never_raises emptyDF "p" "e"
      (.ok ⟨["Last_Update", "Country_Region"], [[some (Val.date 1), some (Val.str "US")]]⟩)
      toDatetime (.failure "disk full")).2.2 (by decide)⟩

/-- C1: whenever cleaning returns a table, that table has no missing
value in any retained row, every retained row's `Country_Region` value
is exactly `"US"`, and neither `Long_` nor `Lat` is among its columns,
whatever the input table contained. -/
theorem clean_data_invariants (parse : Val → Option Val) (df out : DataFrame)
    (hwf : df.WF) (h : (clean_data parse df).result = .ok out) :
    (∀ r ∈ out.rows, ∀ x ∈ r, x.isSome) ∧
    (∀ r ∈ out.rows, lookupCell out.cols r "Country_Region" = some (some (Val.str "US"))) ∧
    "Long_" ∉ out.cols ∧ "Lat" ∉ out.cols := by
  cases hconv : convertCol parse (dropna df) with
  | error e => simp [clean_data, hconv] at h
  | ok df2 =>
    obtain ⟨hcols2, hlu, hrows2⟩ := convertCol_ok_rows hconv
    have hprops : ∀ r2 ∈ df2.rows, (∀ x ∈ r2, x.isSome) ∧ r2.length = df2.cols.length := by
      intro r2 hr2
      obtain ⟨r1, hr1, hset⟩ := hrows2 r2 hr2
      constructor
      · exact setCol_ok_complete (dropna df).cols r1 r2 (dropna_complete df r1 hr1) hset
      · rw [setCol_ok_length (dropna df).cols r1 r2 hset, hcols2]
        exact hwf.1 r1 (dropna_sub df r1 hr1)
    by_cases hcr : "Country_Region" ∈ df2.cols
    · have hout : out = dropCols (filterUS df2) droppedCols := by
        simp [clean_data, hconv, hcr] at h
        exact h.symm
      subst hout
      refine ⟨?_, ?_, ?_, ?_⟩
      · intro r hr x hx
        simp only [dropCols, filterUS] at hr
        obtain ⟨r0, hr0, hrr⟩ := List.mem_map.mp hr
        subst hrr
        have hx0 := mem_dropRowCells droppedCols df2.cols r0 x hx
        exact (hprops r0 (List.mem_of_mem_filter hr0)).1 x hx0
      · intro r hr
        simp only [dropCols, filterUS] at hr ⊢
        obtain ⟨r0, hr0, hrr⟩ := List.mem_map.mp hr
        subst hrr
        have hr0m : r0 ∈ df2.rows := List.mem_of_mem_filter hr0
        have hflt := List.of_mem_filter hr0
        rw [decide_eq_true_eq] at hflt
        rw [lookupCell_dropRowCells droppedCols "Country_Region" (by decide)
              df2.cols r0 (hprops r0 hr0m).2]
        exact hflt
      · intro hmem
        simp only [dropCols, filterUS] at hmem
        have h2 := List.of_mem_filter hmem
        simp [droppedCols] at h2
      · intro hmem
        simp only [dropCols, filterUS] at hmem
        have h2 := List.of_mem_filter hmem
        simp [droppedCols] at h2
    · have hout : out = emptyDF := by
        simp [clean_data, hconv, hcr] at h
        exact h.symm
      subst hout
      exact ⟨by simp [emptyDF], by simp [emptyDF], by simp [emptyDF], by simp [emptyDF]⟩

/-- Witness for C1 on `sampleRaw`. -/
theorem clean_data_invariants_witness :
    sampleRaw.WF ∧
    (clean_data toDatetime sampleRaw).result = .ok sampleCleaned ∧
    ("Long_" ∉ sampleCleaned.cols ∧ "Lat" ∉ sampleCleaned.cols) :=
  ⟨by decide, by decide,
   (clean_data_invariants toDatetime sampleRaw sampleCleaned (by decide) (by decide)).2.2⟩

/-- C4 counterexample: this table is already cleaned in the claim's
sense — no missing values, every row's `Country_Region` is `"US"`, and
no coordinate columns — yet cleaning it again does not return the same
table: it raises a `KeyError`, because the table has no `Last_Update`
column and the timestamp access happens unconditionally. -/
theorem clean_data_idempotent_counterexample :
    (∀ r ∈ (⟨["Country_Region"], [[some (Val.str "US")]]⟩ : DataFrame).rows,
       ∀ x ∈ r, x.isSome) ∧
    (∀ r ∈ (⟨["Country_Region"], [[some (Val.str "US")]]⟩ : DataFrame).rows,
       lookupCell ["Country_Region"] r "Country_Region" = some (some (Val.str "US"))) ∧
    "Long_" ∉ (["Country_Region"] : List String) ∧
    "Lat" ∉ (["Country_Region"] : List String) ∧
    (clean_data toDatetime ⟨["Country_Region"], [[some (Val.str "US")]]⟩).result
      ≠ .ok ⟨["Country_Region"], [[some (Val.str "US")]]⟩ ∧
    (clean_data toDatetime ⟨["Country_Region"], [[some (Val.str "US")]]⟩).result
      = .error .keyError := by
  decide

/-- C4 (amended): cleaning is idempotent on already-cleaned tables that
still carry the `Last_Update` column (with values the timestamp parser
maps to themselves) and the `Country_Region` column: with no missing
values, every row `"US"`, and no coordinate columns, cleaning again
returns the same table. -/
theorem clean_data_idempotent (parse : Val → Option Val) (df : DataFrame)
    (hwf : df.WF)
    (hcomplete : ∀ r ∈ df.rows, ∀ x ∈ r, x.isSome)
    (hus : ∀ r ∈ df.rows, lookupCell df.cols r "Country_Region" = some (some (Val.str "US")))
    (hlong : "Long_" ∉ df.cols) (hlat : "Lat" ∉ df.cols)
    (hlu : "Last_Update" ∈ df.cols) (hcr : "Country_Region" ∈ df.cols)
    (hfix : ∀ r ∈ df.rows, ∀ v : Val,
      lookupCell df.cols r "Last_Update" = some (some v) → parse v = some v) :
    (clean_data parse df).result = .ok df := by
  have hdrop : dropna df = df := by
    unfold dropna
    have h1 : df.rows.filter rowComplete = df.rows := by
      rw [List.filter_eq_self]
      intro r hr
      unfold rowComplete
      rw [List.all_eq_true]
      exact fun x hx => hcomplete r hr x hx
    rw [h1]
  have hconv : convertCol parse df = .ok df := by
    unfold convertCol
    rw [if_pos hlu]
    have hm : mapE (setCol parse df.cols) df.rows = .ok df.rows :=
      mapE_ok_of_fix (fun r hr =>
        setCol_ok_of_fix df.cols r hlu (hwf.1 r hr) (hcomplete r hr) (hfix r hr))
    rw [hm]
    rfl
  have hfilter : filterUS df = df := by
    unfold filterUS
    have h1 : df.rows.filter
        (fun r => decide (lookupCell df.cols r "Country_Region" = some (some (Val.str "US"))))
        = df.rows := by
      rw [List.filter_eq_self]
      intro r hr
      rw [decide_eq_true_eq]
      exact hus r hr
    rw [h1]
  have hnotdropped : ∀ c ∈ df.cols, droppedCols.contains c = false := by
    intro c hcm
    have h1 : c ≠ "Long_" := fun he => hlong (he ▸ hcm)
    have h2 : c ≠ "Lat" := fun he => hlat (he ▸ hcm)
    simp [droppedCols, h1, h2]
  have hdc : dropCols df droppedCols = df := by
    unfold dropCols
    have hcols : df.cols.filter (fun c => !droppedCols.contains c) = df.cols := by
      rw [List.filter_eq_self]
      intro c hcm
      rw [hnotdropped c hcm]
      rfl
    have hrows : df.rows.map (dropRowCells droppedCols df.cols) = df.rows :=
      map_eq_self_of_fix _ _ (fun r hr =>
        dropRowCells_eq_self droppedCols df.cols r hnotdropped (hwf.1 r hr))
    rw [hcols, hrows]
  have h1 : convertCol parse (dropna df) = .ok df := by rw [hdrop]; exact hconv
  simp [clean_data, h1, hcr, hfilter, hdc]

/-- Witness for C4 (amended) on `fixedTable`. -/
theorem clean_data_idempotent_witness :
    (clean_data toDatetime fixedTable).result = .ok fixedTable :=
  clean_data_idempotent toDatetime fixedTable (by decide) (by decide) (by decide)
    (by decide) (by decide) (by decide) (by decide)
    (by
      intro r hr v hv
      have hr2 : r = [some (Val.date 3), some (Val.str "US")] := by
        simpa [fixedTable] using hr
      subst hr2
      have hl : lookupCell fixedTable.cols [some (Val.date 3), some (Val.str "US")]
          "Last_Update" = some (some (Val.date 3)) := by decide
      rw [hl] at hv
      obtain rfl : Val.date 3 = v := by simpa using hv
      rfl)

/-- C7: when the `Last_Update` column exists but one of its (retained)
values cannot be parsed, cleaning propagates the parsing error to its
caller — no fallback, and no conversion into an empty-table result. -/
theorem clean_data_parse_error (parse : Val → Option Val) (df : DataFrame)
    (hwf : df.WF) (hlu : "Last_Update" ∈ df.cols)
    (hfail : ∃ r ∈ (dropna df).rows, ∃ v : Val,
      lookupCell df.cols r "Last_Update" = some (some v) ∧ parse v = none) :
    (clean_data parse df).result = .error .parseError := by
  have hmap : mapE (setCol parse (dropna df).cols) (dropna df).rows
      = .error .parseError := by
    apply mapE_error_of_mem
    · intro r hr
      have hlen : r.length = df.cols.length := hwf.1 r (dropna_sub df r hr)
      exact setCol_ok_or_parse_error df.cols r hlu hlen
    · obtain ⟨r, hr, v, hlook, hpv⟩ := hfail
      exact ⟨r, hr,
        setCol_parse_error df.cols r v (hwf.1 r (dropna_sub df r hr)) hlook hpv⟩
  have hconv : convertCol parse (dropna df) = .error .parseError := by
    unfold convertCol
    rw [if_pos (show "Last_Update" ∈ (dropna df).cols from hlu), hmap]
    rfl
  simp [clean_data, hconv]

/-- Witness for C7: a one-row table whose timestamp value is not a
date. -/
theorem clean_data_parse_error_witness :
    (⟨["Last_Update"], [[some (Val.str "notadate")]]⟩ : DataFrame).WF ∧
    (clean_data toDatetime ⟨["Last_Update"], [[some (Val.str "notadate")]]⟩).result
      = .error .parseError :=
  ⟨by decide,
   clean_data_parse_error toDatetime ⟨["Last_Update"], [[some (Val.str "notadate")]]⟩
     (by decide) (by decide)
     ⟨[some (Val.str "notadate")], by decide, Val.str "notadate", by decide, by decide⟩⟩

end Covid
